import Mathlib

/-!
Verification of the MyArticles enrichment pipeline (`MyArticles.py`).

The development shallowly embeds the parts of the script the specification
talks about: the quality classifier (`get_quality`, with its five ordered
regex rules), the readable-prose-size extractor (`get_prose_size`), the
persistent cache (module-level `cache` dict, `save_cache`, the startup
load/delete logic), the batch preloader (`batch_get_wikitext`,
`prepare_quality_data`), the concurrent collection loop of
`process_article_data`, and the fatal-condition structure of `main`.

Network and HTML-parsing effects are abstracted as explicit inputs:
an extractor receives a fetch function whose result describes the shape
of the HTTP response at exactly the granularity the Python code inspects
(error raised / "error" field / missing "parse.text" / empty HTML /
paragraph texts left after the structural-strip selectors).
-/

namespace MyArticles

/-! ## A small regex engine (Brzozowski derivatives)

`re.search` in the source is modelled by `research`: a pattern matches the
string iff `any* pattern any*` matches the whole character list. Character
classes are boolean predicates; `\s` is modelled by the six ASCII
whitespace characters (the Python patterns and all inputs considered here
use only those). -/

inductive RE where
  | fail : RE
  | eps : RE
  | pred : (Char → Bool) → RE
  | cat : RE → RE → RE
  | alt : RE → RE → RE
  | star : RE → RE

def RE.nullable : RE → Bool
  | .fail => false
  | .eps => true
  | .pred _ => false
  | .cat a b => a.nullable && b.nullable
  | .alt a b => a.nullable || b.nullable
  | .star _ => true

/-- Smart concatenation, pruning `fail` and `eps`; keeps derivatives small. -/
def mkCat : RE → RE → RE
  | .fail, _ => .fail
  | .eps, b => b
  | a, b =>
    match b with
    | .fail => .fail
    | .eps => a
    | _ => .cat a b

/-- Smart alternation, pruning `fail`. -/
def mkAlt : RE → RE → RE
  | .fail, b => b
  | a, .fail => a
  | a, b => .alt a b

def RE.deriv : RE → Char → RE
  | .fail, _ => .fail
  | .eps, _ => .fail
  | .pred p, c => if p c then .eps else .fail
  | .cat a b, c =>
    if a.nullable then mkAlt (mkCat (a.deriv c) b) (b.deriv c)
    else mkCat (a.deriv c) b
  | .alt a b, c => mkAlt (a.deriv c) (b.deriv c)
  | .star a, c => mkCat (a.deriv c) (.star a)

/-- Whole-string match by iterated derivatives. -/
def RE.rmatch (r : RE) (s : List Char) : Bool :=
  (s.foldl RE.deriv r).nullable

/-- Any single character. -/
def reAny : RE := RE.pred (fun _ => true)

/-- Model of Python `re.search(pattern, s)`: some substring of `s`
matches `pattern`. -/
def research (r : RE) (s : String) : Bool :=
  RE.rmatch (mkCat (RE.star reAny) (mkCat r (RE.star reAny))) s.data

/-- Literal string pattern. -/
def reLit (s : String) : RE :=
  s.data.foldr (fun ch r => RE.cat (RE.pred (fun c => c == ch)) r) RE.eps

/-- Model of `\s` (ASCII whitespace as used by the source patterns). -/
def isPySpace (c : Char) : Bool :=
  c == ' ' || c == '\t' || c == '\n' || c == '\r' || c == '\x0b' || c == '\x0c'

/-- Pattern `\s*`. -/
def reSpaceStar : RE := RE.star (RE.pred isPySpace)

/-- Pattern `\s+`. -/
def reSpacePlus : RE := RE.cat (RE.pred isPySpace) reSpaceStar

/-- Pattern `r?`. -/
def reOpt (r : RE) : RE := RE.alt r RE.eps

/-- Template-name words joined by `\s+`. -/
def reWords : List String → RE
  | [] => RE.eps
  | [w] => reLit w
  | w :: ws => RE.cat (reLit w) (RE.cat reSpacePlus (reWords ws))

/-- The template pattern family of `get_quality` (lines 245-254):
`\{\{\s*(subst:\s*)?NAME(\|[^}]*)?}}` where NAME is `words` joined by
`\s+`. -/
def reTemplate (words : List String) : RE :=
  RE.cat (reLit "\x7b\x7b")
    (RE.cat reSpaceStar
      (RE.cat (reOpt (RE.cat (reLit "subst:") reSpaceStar))
        (RE.cat (reWords words)
          (RE.cat
            (reOpt (RE.cat (RE.pred (fun c => c == '|'))
              (RE.star (RE.pred (fun c => !(c == '\x7d'))))))
            (reLit "\x7d\x7d")))))

/-- Rule 1 pattern: `\{\{\s*(subst:\s*)?избранная\s+статья(\|[^}]*)?}}`. -/
def reFeaturedArticle : RE := reTemplate ["избранная", "статья"]

/-- Rule 2 pattern: featured list. -/
def reFeaturedList : RE := reTemplate ["избранный", "список"]

/-- Rule 3 pattern: featured list-or-portal. -/
def reFeaturedListOrPortal : RE := reTemplate ["избранный", "список", "или", "портал"]

/-- Rule 3 extra condition: `тип\s*=\s*список`. -/
def reTypeList : RE :=
  RE.cat (reLit "тип")
    (RE.cat reSpaceStar (RE.cat (reLit "=") (RE.cat reSpaceStar (reLit "список"))))

/-- Rule 4 pattern: good article. -/
def reGoodArticle : RE := reTemplate ["хорошая", "статья"]

/-- Rule 5 pattern: solid/decent article. -/
def reSolidArticle : RE := reTemplate ["добротная", "статья"]

/-- Model of Python `str.lower()` restricted to the alphabets actually
occurring in the patterns and inputs: ASCII letters and Russian Cyrillic. -/
def lowerRuChar (c : Char) : Char :=
  if 'A' ≤ c && c ≤ 'Z' then Char.ofNat (c.toNat + 32)
  else if 'А' ≤ c && c ≤ 'Я' then Char.ofNat (c.toNat + 32)
  else if c == 'Ё' then 'ё'
  else c

def lowerRu (s : String) : String := String.mk (s.data.map lowerRuChar)

/-- The classification chain of `get_quality` (lines 241-256), applied to
the fetched wikitext: lowercase, then the five `re.search` rules in source
order, first match wins; rule 3 additionally requires `тип=список` and,
when its template matches without that parameter, terminates the chain
with no label. -/
def get_quality_label (wikitext : String) : String :=
  let w := lowerRu wikitext
  if research reFeaturedArticle w then "featured_article"
  else if research reFeaturedList w then "featured_list"
  else if research reFeaturedListOrPortal w then
    (if research reTypeList w then "featured_list" else "")
  else if research reGoodArticle w then "good"
  else if research reSolidArticle w then "b"
  else ""

/-! ## Cache model

The module-level `cache` dict (line 71) keyed by the
strings "prose_size:" + title and "quality:" + title. A Python dict storing heterogeneous
values is modelled as an association list of `String × CacheValue`;
assignment is modelled by consing, lookup by first match (so the newest
binding wins, like dict assignment). -/

inductive CacheValue where
  | nat : Nat → CacheValue
  | str : String → CacheValue
deriving DecidableEq, Repr

abbrev Cache : Type := List (String × CacheValue)

def cacheLookup : Cache → String → Option CacheValue
  | [], _ => none
  | (k, v) :: rest, key => if key = k then some v else cacheLookup rest key

def cacheInsert (key : String) (v : CacheValue) (c : Cache) : Cache :=
  (key, v) :: c

/-- The run configuration bits the cache logic consults:
`USE_CACHE` (line 47) and `FORCE_RECALCULATE` (lines 54-62). -/
structure Config where
  use_cache : Bool
  force_recalculate : Bool
deriving DecidableEq, Repr

/-- On-disk state of the cache blob: `none` = no file at `CACHE_FILE`,
`some none` = file present but `pickle.load` fails, `some (some c)` =
file present and deserializes to `c`. -/
abbrev DiskBlob : Type := Option (Option Cache)

/-- The startup cache logic, lines 67-90: load the blob when
`USE_CACHE and os.path.exists(CACHE_FILE) and not FORCE_RECALCULATE`
(a load error yields an empty cache, file kept); otherwise start empty,
and under forced recalculation delete any existing blob (best-effort:
`delete_ok` tells whether `os.remove` succeeds). Returns the in-memory
cache and the disk state after startup. -/
def startup_cache (cfg : Config) (delete_ok : Bool) (disk : DiskBlob) :
    Cache × DiskBlob :=
  if cfg.use_cache && disk.isSome && !cfg.force_recalculate then
    match disk with
    | some (some c) => (c, disk)
    | some none => ([], disk)
    | none => ([], disk)
  else
    if cfg.force_recalculate then
      match disk with
      | some _ => if delete_ok then ([], none) else ([], disk)
      | none => ([], disk)
    else ([], disk)

/-- Source function `save_cache` (lines 93-99): writes the in-memory cache to the blob
only when `USE_CACHE and not FORCE_RECALCULATE`; a write error
(`write_ok = false`) is logged and swallowed, leaving the disk as it was.
Returns the disk state after the call. -/
def save_cache (cfg : Config) (c : Cache) (write_ok : Bool) (disk : DiskBlob) :
    DiskBlob :=
  if cfg.use_cache && !cfg.force_recalculate then
    (if write_ok then some (some c) else disk)
  else disk

/-! ## prose-size extractor -/

/-- Model of Python `str.strip()` over the same ASCII whitespace set. -/
def pyStrip (s : String) : String :=
  String.mk (((s.data.dropWhile isPySpace).reverse.dropWhile isPySpace).reverse)

/-- Model of the Python expression `" ".flatten(...)` at line 205. -/
def joinSpace : List String → String
  | [] => ""
  | [s] => s
  | s :: rest => s ++ " " ++ joinSpace rest

/-- Shape of the `action=parse&prop=text` response at the granularity
`get_prose_size` inspects (lines 166-200). `html ps` abstracts a
non-empty HTML payload by the list of `get_text()` values of its `<p>`
blocks remaining after the structural-strip selectors
(`table, .navbox, .reference, script, style, .mw-editsection, .noprint`)
have been decomposed; BeautifulSoup itself is not modelled. -/
inductive ApiResponse where
  | fetchError : ApiResponse
  | errorField : ApiResponse
  | missingParse : ApiResponse
  | emptyHtml : ApiResponse
  | html : List String → ApiResponse

/-- The computation part of `get_prose_size` (lines 166-208): `some r`
when control reaches line 206 with result `r` (paragraphs were found,
the result is subsequently cached); `none` when one of the early
`return 0` paths fires (error response, malformed structure, empty HTML,
no paragraphs, or a raised exception) — those paths never write the
cache. -/
def prose_from_response : ApiResponse → Option Nat
  | .fetchError => none
  | .errorField => none
  | .missingParse => none
  | .emptyHtml => none
  | .html ps =>
    if ps.isEmpty then none
    else some (joinSpace (ps.map pyStrip)).length

/-- Source function `get_prose_size` (lines 159-220). Returns the value produced, the
cache after the call, and whether a network fetch was issued. The cache
is consulted only when `USE_CACHE and not FORCE_RECALCULATE` (line 162),
and written back only under the same guard (line 211). -/
def get_prose_size (cfg : Config) (c : Cache) (fetch : String → ApiResponse)
    (title : String) : CacheValue × Cache × Bool :=
  let cache_key := "prose_size:" ++ title
  match (if cfg.use_cache && !cfg.force_recalculate then cacheLookup c cache_key else none) with
  | some v => (v, c, false)
  | none =>
    match prose_from_response (fetch title) with
    | none => (CacheValue.nat 0, c, true)
    | some r =>
      if cfg.use_cache && !cfg.force_recalculate then
        (CacheValue.nat r, cacheInsert cache_key (CacheValue.nat r) c, true)
      else (CacheValue.nat r, c, true)

/-! ## quality extractor -/

/-- The post-fetch computation of `get_quality`: the fetch function
returns `none` when the request raises (the `except` path returns `""`
without caching) and `some w` when the response parses, `w` being
`data.get("parse", \x7b\x7d).get("wikitext", "")`. -/
def quality_from_response : Option String → String
  | none => ""
  | some w => get_quality_label w

/-- Source function `get_quality` (lines 225-264). Same cache discipline as
`get_prose_size`; note that the classifier result — including `""` — is
written back to the cache (line 259), while the exception path is not. -/
def get_quality (cfg : Config) (c : Cache) (fetch : String → Option String)
    (title : String) : CacheValue × Cache × Bool :=
  let cache_key := "quality:" ++ title
  match (if cfg.use_cache && !cfg.force_recalculate then cacheLookup c cache_key else none) with
  | some v => (v, c, false)
  | none =>
    match fetch title with
    | none => (CacheValue.str "", c, true)
    | some wikitext =>
      let result := get_quality_label wikitext
      if cfg.use_cache && !cfg.force_recalculate then
        (CacheValue.str result, cacheInsert cache_key (CacheValue.str result) c, true)
      else (CacheValue.str result, c, true)

/-! ## Batch preloader -/

/-- Recursion worker for `chunksOf`; the fuel argument (instantiated
with the list length, an upper bound on the number of slices when
`0 < n`) keeps the recursion structural. -/
def chunksOfAux (n : Nat) : Nat → List α → List (List α)
  | 0, _ => []
  | _, [] => []
  | fuel + 1, x :: xs => (x :: xs).take n :: chunksOfAux n fuel ((x :: xs).drop n)

/-- Slices `titles[i:i + batch_size]` of the loop
`for i in range(0, len(titles), batch_size)` (line 276). A zero batch
size raises in Python (`range` step 0) and is mapped to no slices. -/
def chunksOf (n : Nat) (l : List α) : List (List α) :=
  if n = 0 then [] else chunksOfAux n l.length l

/-- One page object of the batch response (lines 291-295): `content` is
`some` exactly when the page has a non-empty `revisions` list, carrying
the extracted `slots.main.*` text (the `.get` defaults folded in). -/
structure BatchPage where
  title : String
  content : Option String
deriving DecidableEq, Repr

/-- Outcome of one multi-title request inside `batch_get_wikitext`:
the request raises (caught at line 296, logged, loop continues), or the
JSON lacks `query.pages` (nothing is added), or it carries page objects. -/
inductive BatchFetchResult where
  | fetchError : BatchFetchResult
  | noPages : BatchFetchResult
  | pages : List BatchPage → BatchFetchResult

/-- The page-dict extraction of lines 290-295. -/
def extract_pages (ps : List BatchPage) : List (String × String) :=
  ps.filterMap (fun p => p.content.map (fun content => (p.title, content)))

/-- Source function `batch_get_wikitext` (lines 268-299): early-return `\x7b\x7d` on an
empty title list, otherwise one fetch per 50-title chunk, accumulating
`results`. The second component instruments the network effect: the list
of title groups actually passed to the API, one entry per issued request
(the source logs and continues on failure; no retry appears). -/
def batch_get_wikitext (fetch : List String → BatchFetchResult)
    (titles : List String) : List (String × String) × List (List String) :=
  if titles.isEmpty then ([], [])
  else
    (chunksOf 50 titles).foldl
      (fun acc batch =>
        match fetch batch with
        | .fetchError => (acc.1, acc.2 ++ [batch])
        | .noPages => (acc.1, acc.2 ++ [batch])
        | .pages ps => (acc.1 ++ extract_pages ps, acc.2 ++ [batch]))
      ([], [])

/-- Source function `prepare_quality_data` (lines 466-483): splits the full title list
into blocks of `min(50, MAX_WORKERS * 5)` and calls `batch_get_wikitext`
on each block, collecting nothing — the source discards every return
value of `batch_get_wikitext`; the returned list here only records what
those calls produced. -/
def prepare_quality_data (batch_fetch : List String → BatchFetchResult)
    (max_workers : Nat) (all_titles : List String) :
    List (List (String × String) × List (List String)) :=
  (chunksOf (min 50 (max_workers * 5)) all_titles).map
    (fun block => batch_get_wikitext batch_fetch block)

/-! ## Row model and enrichment engine -/

/-- One row of the Quarry TSV (`csv.DictReader` yields string fields). -/
structure QRow where
  page_title : String
  created : String
  size : String
  redlinks : String
  is_disambiguation : String
deriving DecidableEq, Repr

/-- The dict built by `fetch_row_data` (lines 503-512). `prose_size` and
`quality` carry whatever the extractors returned — normally a number and
a label, but on a cache hit the stored value verbatim. -/
structure EnrichedRow where
  page_title : String
  created : String
  size : String
  prose_size : CacheValue
  redlinks : String
  is_disambiguation : String
  comment : String
  quality : CacheValue
deriving DecidableEq, Repr

/-- Title → comment association derived from the previously published
dataset (`existing_map.get(title, \x7b\x7d).get("comment", "")`,
line 487). -/
def commentLookup : List (String × String) → String → String
  | [], _ => ""
  | (k, v) :: rest, key => if key = k then v else commentLookup rest key

/-- The abstract network capabilities the pipeline consumes. -/
structure Sources where
  prose_fetch : String → ApiResponse
  wikitext_fetch : String → Option String
  batch_fetch : List String → BatchFetchResult

/-- Source function `fetch_row_data` (lines 485-512), threading the shared cache
sequentially: prose size first, then quality, then the row dict. -/
def fetch_row_data (cfg : Config) (src : Sources)
    (existing : List (String × String)) (c : Cache) (row : QRow) :
    EnrichedRow × Cache :=
  let pr := get_prose_size cfg c src.prose_fetch row.page_title
  let qr := get_quality cfg pr.2.1 src.wikitext_fetch row.page_title
  ({ page_title := row.page_title
     created := row.created
     size := row.size
     prose_size := pr.1
     redlinks := row.redlinks
     is_disambiguation := row.is_disambiguation
     comment := commentLookup existing row.page_title
     quality := qr.1 }, qr.2.1)

/-- The result-collection loop of `process_article_data`
(lines 514-539): each future either yields an `EnrichedRow` or raises;
a raising row is logged and dropped (`updated_rows.append` only runs in
the `try` arm), the loop continues. `order` is the completion order of
the futures. -/
def process_article_data (fetch_row : QRow → Except String EnrichedRow)
    (order : List QRow) : List EnrichedRow :=
  order.filterMap (fun r => (fetch_row r).toOption)

/-- The sequential data path of `process_article_data`
(lines 458-555 without the thread pool): run the preloader — whose
result `_preload` is never consulted again — then fold
`fetch_row_data` over the rows, threading the cache. -/
def run_enrichment (cfg : Config) (src : Sources)
    (existing : List (String × String)) (max_workers : Nat)
    (rows : List QRow) (c : Cache) : List EnrichedRow × Cache :=
  let _preload := prepare_quality_data src.batch_fetch max_workers
    (rows.map (fun r => r.page_title))
  rows.foldl
    (fun acc row =>
      let step := fetch_row_data cfg src existing acc.2 row
      (acc.1 ++ [step.1], step.2))
    ([], c)

/-! ## Main -/

/-- The inputs `main` (lines 559-602) branches on: the Quarry result
(`none` = download failed, line 153), the per-row enrichment behavior,
the authentication outcome (`authenticate_commons` returning
`(None, None)` on any failure), and whether `upload_data_to_commons`
succeeds once called. -/
structure MainEnv where
  quarry_rows : Option (List QRow)
  fetch_row : QRow → Except String EnrichedRow
  auth : Option Unit
  upload_ok : Bool

structure MainOutcome where
  status : Nat
  publish_attempted : Bool
deriving DecidableEq, Repr

/-- Source function `main` (lines 559-602): `if not quarry_rows: return 1`;
`if not updated_rows: return 1`; `if not session or not csrf_token:
return 1`; otherwise upload and `return 0 if result else 1`.
`publish_attempted` records whether `upload_data_to_commons` was
called. -/
def main (env : MainEnv) : MainOutcome :=
  match env.quarry_rows with
  | none => { status := 1, publish_attempted := false }
  | some rows =>
    if rows.isEmpty then { status := 1, publish_attempted := false }
    else
      let updated := process_article_data env.fetch_row rows
      if updated.isEmpty then { status := 1, publish_attempted := false }
      else
        match env.auth with
        | none => { status := 1, publish_attempted := false }
        | some _ =>
          { status := if env.upload_ok then 0 else 1, publish_attempted := true }

/-- The typing discipline the cache keys implicitly carry: every value
stored under a prose_size key is a (non-negative, being `Nat`) integer,
and every value stored under a quality key is one of the five labels the
classifier can produce. -/
def WellTypedCache (c : Cache) : Prop :=
  (∀ (t : String) (v : CacheValue),
    cacheLookup c ("prose_size:" ++ t) = some v → ∃ n, v = CacheValue.nat n) ∧
  (∀ (t : String) (v : CacheValue),
    cacheLookup c ("quality:" ++ t) = some v →
      v = CacheValue.str "featured_article" ∨ v = CacheValue.str "featured_list" ∨
      v = CacheValue.str "good" ∨ v = CacheValue.str "b" ∨ v = CacheValue.str "")

/-- Per-group contribution of one batch request to the accumulated
`results` dict of `batch_get_wikitext`: a failed or page-less response
contributes nothing, a page response its extracted title-content
pairs. -/
def batch_contrib (fetch : List String → BatchFetchResult)
    (g : List String) : List (String × String) :=
  match fetch g with
  | .pages ps => extract_pages ps
  | _ => []

/-! ## Helper lemmas -/

theorem prose_key_ne_quality_key (a b : String) :
    ("prose_size:" ++ a) ≠ ("quality:" ++ b) := by
  intro h
  have h2 := congrArg (fun s : String => s.data.head?) h
  simp only [String.data_append] at h2
  have e1 : ("prose_size:".data ++ a.data).head? = some 'p' := rfl
  have e2 : ("quality:".data ++ b.data).head? = some 'q' := rfl
  rw [e1, e2] at h2
  exact absurd h2 (by decide)

theorem length_pos_of_ne_empty (s : String) (h : s ≠ "") : 0 < s.length := by
  cases s with
  | mk data =>
    cases data with
    | nil => exact absurd rfl h
    | cons a l => exact Nat.succ_pos l.length

theorem joinSpace_length_ge (l : List String) (s : String) (h : s ∈ l) :
    s.length ≤ (joinSpace l).length := by
  induction l with
  | nil => simp at h
  | cons a rest ih =>
    cases rest with
    | nil =>
      have hs : s = a := by simpa using h
      subst hs
      simp [joinSpace]
    | cons b t =>
      have hj : joinSpace (a :: b :: t) = a ++ " " ++ joinSpace (b :: t) := rfl
      rcases List.mem_cons.mp h with h1 | h1
      · subst h1
        rw [hj, String.length_append, String.length_append]
        omega
      · have hle := ih h1
        rw [hj, String.length_append, String.length_append]
        omega

/-! ## Claims about the quality classifier -/

/-- C2: the quality classifier evaluates its fixed rule list
top-to-bottom with first-match-wins semantics — markup matching both the
featured-article pattern (rule 1) and the good-article pattern (rule 4)
classifies as featured_article, and markup matching none of the five
rule patterns yields the empty label. -/
theorem claim2_quality_rule_priority (w : String) :
    (research reFeaturedArticle (lowerRu w) = true →
      research reGoodArticle (lowerRu w) = true →
      get_quality_label w = "featured_article") ∧
    (research reFeaturedArticle (lowerRu w) = false →
      research reFeaturedList (lowerRu w) = false →
      research reFeaturedListOrPortal (lowerRu w) = false →
      research reGoodArticle (lowerRu w) = false →
      research reSolidArticle (lowerRu w) = false →
      get_quality_label w = "") := by
  constructor
  · intro h1 _
    simp [get_quality_label, h1]
  · intro h1 h2 h3 h4 h5
    simp [get_quality_label, h1, h2, h3, h4, h5]

/-- Witness for C2 at concrete markup: text carrying both a
featured-article and a good-article template, and text carrying no
template at all. -/
theorem claim2_quality_rule_priority_witness :
    get_quality_label "\x7b\x7bИзбранная статья\x7d\x7d и \x7b\x7bХорошая статья\x7d\x7d" = "featured_article" ∧
    get_quality_label "просто текст" = "" := by
  constructor
  · exact (claim2_quality_rule_priority _).1 (by decide) (by decide)
  · exact (claim2_quality_rule_priority _).2 (by decide) (by decide) (by decide)
      (by decide) (by decide)

/-- C9: markup matching neither rule 1 nor rule 2 but carrying the
featured list-or-portal template classifies as featured_list exactly
when the type-equals-list parameter text is also present; when the
template is present without it, rule 3 assigns no label and the chain
ends with the empty label. -/
theorem claim9_list_or_portal_rule (w : String) :
    (research reFeaturedArticle (lowerRu w) = false →
      research reFeaturedList (lowerRu w) = false →
      research reFeaturedListOrPortal (lowerRu w) = true →
      research reTypeList (lowerRu w) = true →
      get_quality_label w = "featured_list") ∧
    (research reFeaturedArticle (lowerRu w) = false →
      research reFeaturedList (lowerRu w) = false →
      research reFeaturedListOrPortal (lowerRu w) = true →
      research reTypeList (lowerRu w) = false →
      get_quality_label w = "") := by
  constructor <;>
    · intro h1 h2 h3 h4
      simp [get_quality_label, h1, h2, h3, h4]

/-- Witness for C9: the list-or-portal template with and without the
type-equals-list parameter. -/
theorem claim9_list_or_portal_rule_witness :
    get_quality_label "\x7b\x7bИзбранный список или портал|тип=список\x7d\x7d" = "featured_list" ∧
    get_quality_label "\x7b\x7bИзбранный список или портал\x7d\x7d" = "" := by
  constructor
  · exact (claim9_list_or_portal_rule _).1 (by decide) (by decide) (by decide) (by decide)
  · exact (claim9_list_or_portal_rule _).2 (by decide) (by decide) (by decide) (by decide)

/-! ## Claim about the prose-size extractor -/

/-- C1 counterexample: a response whose HTML contains two paragraph
blocks that are both empty — so the title has no paragraph content in
the sense of the claim (no non-empty paragraph block) — yet the
extractor returns 1 (the length of the single-space separator produced
by the join), not 0 as the claim requires. -/
theorem claim1_counterexample :
    (∀ p ∈ ["", ""], pyStrip p = "") ∧
    (get_prose_size ⟨true, false⟩ []
        (fun _ => ApiResponse.html ["", ""]) "Пример").1 = CacheValue.nat 1 := by
  exact ⟨by decide, by decide⟩

/-- C1 (amended): whenever the fetched rendered content contains at
least one paragraph block, the extractor returns the character count of
the stripped paragraph texts joined with single-space separators, a
value that is positive whenever at least one paragraph is non-empty
after stripping; on a fetch error, an error field, a malformed response,
empty HTML, or content with no paragraph blocks at all, it returns
exactly 0. (The original claim demanded 0 for all titles with no
paragraph content; with two or more paragraph blocks all of them empty,
the code returns the number of separators instead.) -/
theorem claim1_prose_size_amended (cfg : Config) (fetch : String → ApiResponse)
    (t : String) :
    (∀ ps, fetch t = ApiResponse.html ps → ps ≠ [] →
      (get_prose_size cfg [] fetch t).1 =
        CacheValue.nat (joinSpace (ps.map pyStrip)).length ∧
      (∀ p, p ∈ ps → pyStrip p ≠ "" → 0 < (joinSpace (ps.map pyStrip)).length)) ∧
    ((fetch t = ApiResponse.fetchError ∨ fetch t = ApiResponse.errorField ∨
      fetch t = ApiResponse.missingParse ∨ fetch t = ApiResponse.emptyHtml ∨
      fetch t = ApiResponse.html []) →
      (get_prose_size cfg [] fetch t).1 = CacheValue.nat 0) := by
  constructor
  · intro ps hps hne
    constructor
    · have hempty : ps.isEmpty = false := by
        cases ps with
        | nil => exact absurd rfl hne
        | cons a l => rfl
      simp only [get_prose_size, cacheLookup, ite_self]
      rw [hps]
      simp only [prose_from_response, hempty, Bool.false_eq_true, if_false]
      split <;> rfl
    · intro p hp hpne
      have h1 := length_pos_of_ne_empty _ hpne
      have h2 := joinSpace_length_ge (ps.map pyStrip) (pyStrip p)
        (List.mem_map_of_mem pyStrip hp)
      omega
  · intro hcase
    simp only [get_prose_size, cacheLookup, ite_self]
    rcases hcase with h | h | h | h | h <;>
      rw [h] <;> simp [prose_from_response]

/-- Witness for C1 (amended): a two-paragraph response of stripped texts
"ab" and "c" yields prose size 4 (positive), an erroring fetch yields
0. -/
theorem claim1_prose_size_amended_witness :
    (get_prose_size ⟨true, false⟩ []
        (fun _ => ApiResponse.html ["ab ", "c"]) "Пример").1 = CacheValue.nat 4 ∧
    0 < (joinSpace (["ab ", "c"].map pyStrip)).length ∧
    (get_prose_size ⟨true, false⟩ []
        (fun _ => ApiResponse.fetchError) "Пример").1 = CacheValue.nat 0 := by
  have h := claim1_prose_size_amended ⟨true, false⟩
    (fun _ => ApiResponse.html ["ab ", "c"]) "Пример"
  have h1 := h.1 ["ab ", "c"] rfl (by decide)
  refine ⟨?_, ?_, ?_⟩
  · rw [h1.1]
    decide
  · exact h1.2 "ab " (by decide) (by decide)
  · exact (claim1_prose_size_amended ⟨true, false⟩
      (fun _ => ApiResponse.fetchError) "Пример").2 (Or.inl rfl)

/-! ## Claims about the cache -/

theorem startup_save_id (cfg : Config) (hu : cfg.use_cache = true)
    (hf : cfg.force_recalculate = false) (c : Cache) (d : Bool) (disk : DiskBlob) :
    (startup_cache cfg d (save_cache cfg c true disk)).1 = c := by
  simp [save_cache, startup_cache, hu, hf]

theorem get_prose_size_cache_hit (cfg : Config) (hu : cfg.use_cache = true)
    (hf : cfg.force_recalculate = false) (c : Cache) (t : String) (v : CacheValue)
    (hl : cacheLookup c ("prose_size:" ++ t) = some v)
    (fetch : String → ApiResponse) :
    get_prose_size cfg c fetch t = (v, c, false) := by
  simp [get_prose_size, hu, hf, hl]

theorem get_quality_cache_hit (cfg : Config) (hu : cfg.use_cache = true)
    (hf : cfg.force_recalculate = false) (c : Cache) (t : String) (v : CacheValue)
    (hl : cacheLookup c ("quality:" ++ t) = some v)
    (gfetch : String → Option String) :
    get_quality cfg c gfetch t = (v, c, false) := by
  simp [get_quality, hu, hf, hl]

/-- C3: cache round-trip. With caching on and recalculation not forced,
after an extractor call leaves a value under its key, any later call for
the same title — against any fetch function, in the same run or against
the cache reloaded from a successfully flushed blob — returns that same
value, issues no fetch, and leaves the cache unchanged. -/
theorem claim3_cache_round_trip (cfg : Config) (hu : cfg.use_cache = true)
    (hf : cfg.force_recalculate = false) :
    (∀ (c : Cache) (fetch : String → ApiResponse) (t : String)
        (v : CacheValue) (c₁ : Cache) (b : Bool),
      get_prose_size cfg c fetch t = (v, c₁, b) →
      cacheLookup c₁ ("prose_size:" ++ t) ≠ none →
      ∀ (fetch' : String → ApiResponse) (d : Bool) (disk : DiskBlob),
        get_prose_size cfg c₁ fetch' t = (v, c₁, false) ∧
        get_prose_size cfg
          (startup_cache cfg d (save_cache cfg c₁ true disk)).1 fetch' t =
          (v, c₁, false)) ∧
    (∀ (c : Cache) (gfetch : String → Option String) (t : String)
        (v : CacheValue) (c₁ : Cache) (b : Bool),
      get_quality cfg c gfetch t = (v, c₁, b) →
      cacheLookup c₁ ("quality:" ++ t) ≠ none →
      ∀ (gfetch' : String → Option String) (d : Bool) (disk : DiskBlob),
        get_quality cfg c₁ gfetch' t = (v, c₁, false) ∧
        get_quality cfg
          (startup_cache cfg d (save_cache cfg c₁ true disk)).1 gfetch' t =
          (v, c₁, false)) := by
  constructor
  · intro c fetch t v c₁ b h1 h2 fetch' d disk
    simp only [get_prose_size, hu, hf, Bool.not_false, Bool.and_self,
      if_true] at h1
    have key : ∀ hl : cacheLookup c₁ ("prose_size:" ++ t) = some v,
        get_prose_size cfg c₁ fetch' t = (v, c₁, false) ∧
        get_prose_size cfg
          (startup_cache cfg d (save_cache cfg c₁ true disk)).1 fetch' t =
          (v, c₁, false) := by
      intro hl
      refine ⟨get_prose_size_cache_hit cfg hu hf c₁ t v hl fetch', ?_⟩
      rw [startup_save_id cfg hu hf c₁ d disk]
      exact get_prose_size_cache_hit cfg hu hf c₁ t v hl fetch'
    cases hlk : cacheLookup c ("prose_size:" ++ t) with
    | some w =>
      rw [hlk] at h1
      have hv : v = w := (congrArg (fun p => p.1) h1).symm
      have hc : c₁ = c := (congrArg (fun p => p.2.1) h1).symm
      exact key (by rw [hc, hv]; exact hlk)
    | none =>
      rw [hlk] at h1
      cases hpr : prose_from_response (fetch t) with
      | none =>
        rw [hpr] at h1
        have hc : c₁ = c := congrArg (fun p => p.2.1) h1.symm
        exact absurd (hc ▸ hlk) h2
      | some r =>
        rw [hpr] at h1
        simp only [hu, hf, Bool.not_false, Bool.and_self, if_true] at h1
        have hv : v = CacheValue.nat r := (congrArg (fun p => p.1) h1).symm
        have hc : c₁ = cacheInsert ("prose_size:" ++ t) (CacheValue.nat r) c :=
          (congrArg (fun p => p.2.1) h1).symm
        have hl : cacheLookup c₁ ("prose_size:" ++ t) = some v := by
          rw [hc, hv]
          simp [cacheInsert, cacheLookup]
        exact key hl
  · intro c gfetch t v c₁ b h1 h2 gfetch' d disk
    simp only [get_quality, hu, hf, Bool.not_false, Bool.and_self,
      if_true] at h1
    have key : ∀ hl : cacheLookup c₁ ("quality:" ++ t) = some v,
        get_quality cfg c₁ gfetch' t = (v, c₁, false) ∧
        get_quality cfg
          (startup_cache cfg d (save_cache cfg c₁ true disk)).1 gfetch' t =
          (v, c₁, false) := by
      intro hl
      refine ⟨get_quality_cache_hit cfg hu hf c₁ t v hl gfetch', ?_⟩
      rw [startup_save_id cfg hu hf c₁ d disk]
      exact get_quality_cache_hit cfg hu hf c₁ t v hl gfetch'
    cases hlk : cacheLookup c ("quality:" ++ t) with
    | some w =>
      rw [hlk] at h1
      have hv : v = w := (congrArg (fun p => p.1) h1).symm
      have hc : c₁ = c := (congrArg (fun p => p.2.1) h1).symm
      exact key (by rw [hc, hv]; exact hlk)
    | none =>
      rw [hlk] at h1
      cases hgf : gfetch t with
      | none =>
        rw [hgf] at h1
        have hc : c₁ = c := (congrArg (fun p => p.2.1) h1).symm
        exact absurd (hc ▸ hlk) h2
      | some w =>
        rw [hgf] at h1
        simp only [hu, hf, Bool.not_false, Bool.and_self, if_true] at h1
        have hv : v = CacheValue.str (get_quality_label w) :=
          (congrArg (fun p => p.1) h1).symm
        have hc : c₁ =
            cacheInsert ("quality:" ++ t)
              (CacheValue.str (get_quality_label w)) c :=
          (congrArg (fun p => p.2.1) h1).symm
        have hl : cacheLookup c₁ ("quality:" ++ t) = some v := by
          rw [hc, hv]
          simp [cacheInsert, cacheLookup]
        exact key hl

/-- Witness for C3: a computed value is served back from the cache on a
second call whose fetch function fails, both for prose size and for
quality. -/
theorem claim3_cache_round_trip_witness :
    get_prose_size ⟨true, false⟩
      [("prose_size:" ++ "T", CacheValue.nat 3)]
      (fun _ => ApiResponse.fetchError) "T" =
      (CacheValue.nat 3, [("prose_size:" ++ "T", CacheValue.nat 3)], false) ∧
    get_quality ⟨true, false⟩
      [("quality:" ++ "T", CacheValue.str "good")]
      (fun _ => none) "T" =
      (CacheValue.str "good", [("quality:" ++ "T", CacheValue.str "good")], false) := by
  have h := claim3_cache_round_trip ⟨true, false⟩ rfl rfl
  constructor
  · exact (h.1 [] (fun _ => ApiResponse.html ["abc"]) "T" (CacheValue.nat 3)
      [("prose_size:" ++ "T", CacheValue.nat 3)] true (by decide) (by decide)
      (fun _ => ApiResponse.fetchError) true none).1
  · exact (h.2 [] (fun _ => some "\x7b\x7bхорошая статья\x7d\x7d") "T"
      (CacheValue.str "good")
      [("quality:" ++ "T", CacheValue.str "good")] true (by decide) (by decide)
      (fun _ => none) true none).1

/-- C4: forced recalculation. With recalculation forced, each extractor
call ignores the pre-existing cache entirely (its result is the pure
recomputation and the cache is returned unchanged, with a fetch always
issued), the flush never writes the persistent blob, and startup leaves
the in-memory cache empty and deletes any existing blob. -/
theorem claim4_forced_recalculation (cfg : Config)
    (hf : cfg.force_recalculate = true) :
    (∀ (c : Cache) (fetch : String → ApiResponse) (t : String),
      get_prose_size cfg c fetch t =
        (CacheValue.nat ((prose_from_response (fetch t)).getD 0), c, true)) ∧
    (∀ (c : Cache) (gfetch : String → Option String) (t : String),
      get_quality cfg c gfetch t =
        (CacheValue.str (quality_from_response (gfetch t)), c, true)) ∧
    (∀ (c : Cache) (write_ok : Bool) (disk : DiskBlob),
      save_cache cfg c write_ok disk = disk) ∧
    (∀ (d : Bool) (disk : DiskBlob), (startup_cache cfg d disk).1 = []) ∧
    (∀ disk : DiskBlob, startup_cache cfg true disk = ([], none)) := by
  refine ⟨?_, ?_, ?_, ?_, ?_⟩
  · intro c fetch t
    cases hpr : prose_from_response (fetch t) <;>
      simp [get_prose_size, hf, hpr]
  · intro c gfetch t
    cases hgf : gfetch t <;>
      simp [get_quality, hf, hgf, quality_from_response]
  · intro c write_ok disk
    simp [save_cache, hf]
  · intro d disk
    cases disk <;> cases d <;> simp [startup_cache, hf]
  · intro disk
    cases disk <;> simp [startup_cache, hf]

/-- Witness for C4: under forced recalculation a stale cached prose size
of 99 is ignored and not overwritten, a cached quality is ignored, the
flush leaves the blob alone, and startup deletes an existing blob. -/
theorem claim4_forced_recalculation_witness :
    get_prose_size ⟨true, true⟩ [("prose_size:" ++ "T", CacheValue.nat 99)]
      (fun _ => ApiResponse.html ["ab"]) "T" =
      (CacheValue.nat 2, [("prose_size:" ++ "T", CacheValue.nat 99)], true) ∧
    get_quality ⟨true, true⟩ [("quality:" ++ "T", CacheValue.str "good")]
      (fun _ => none) "T" =
      (CacheValue.str "", [("quality:" ++ "T", CacheValue.str "good")], true) ∧
    save_cache ⟨true, true⟩ [("prose_size:" ++ "T", CacheValue.nat 2)] true
      (some (some [])) = some (some []) ∧
    startup_cache ⟨true, true⟩ true
      (some (some [("quality:" ++ "T", CacheValue.str "b")])) = ([], none) := by
  have h := claim4_forced_recalculation ⟨true, true⟩ rfl
  refine ⟨?_, ?_, ?_, ?_⟩
  · exact (h.1 _ _ _).trans (by decide)
  · exact (h.2.1 _ _ _).trans (by decide)
  · exact h.2.2.1 _ _ _
  · exact h.2.2.2.2 _

theorem wellTyped_insert_prose (c : Cache) (h : WellTypedCache c)
    (t : String) (n : Nat) :
    WellTypedCache (cacheInsert ("prose_size:" ++ t) (CacheValue.nat n) c) := by
  constructor
  · intro t' v hv
    simp only [cacheInsert, cacheLookup] at hv
    by_cases he : ("prose_size:" ++ t') = ("prose_size:" ++ t)
    · rw [if_pos he] at hv
      exact ⟨n, (Option.some.inj hv).symm⟩
    · rw [if_neg he] at hv
      exact h.1 t' v hv
  · intro t' v hv
    simp only [cacheInsert, cacheLookup] at hv
    rw [if_neg (fun hh => prose_key_ne_quality_key t t' hh.symm)] at hv
    exact h.2 t' v hv

theorem wellTyped_insert_quality (c : Cache) (h : WellTypedCache c)
    (t s : String)
    (hs : s = "featured_article" ∨ s = "featured_list" ∨ s = "good" ∨
      s = "b" ∨ s = "") :
    WellTypedCache (cacheInsert ("quality:" ++ t) (CacheValue.str s) c) := by
  constructor
  · intro t' v hv
    simp only [cacheInsert, cacheLookup] at hv
    rw [if_neg (prose_key_ne_quality_key t' t)] at hv
    exact h.1 t' v hv
  · intro t' v hv
    simp only [cacheInsert, cacheLookup] at hv
    by_cases he : ("quality:" ++ t') = ("quality:" ++ t)
    · rw [if_pos he] at hv
      have hvs : v = CacheValue.str s := (Option.some.inj hv).symm
      rcases hs with hh | hh | hh | hh | hh <;> rw [hvs, hh] <;> simp
    · rw [if_neg he] at hv
      exact h.2 t' v hv

theorem get_quality_label_cases (w : String) :
    get_quality_label w = "featured_article" ∨
    get_quality_label w = "featured_list" ∨ get_quality_label w = "good" ∨
    get_quality_label w = "b" ∨ get_quality_label w = "" := by
  simp only [get_quality_label]
  split_ifs <;> simp

/-- C10: cache typing invariant. Starting from a well-typed cache, every
extractor call leaves the cache well-typed: prose_size keys only ever
receive integer values, quality keys only ever receive one of the five
labels. -/
theorem claim10_cache_typing (cfg : Config) (c : Cache)
    (h : WellTypedCache c) :
    (∀ (fetch : String → ApiResponse) (t : String),
      WellTypedCache (get_prose_size cfg c fetch t).2.1) ∧
    (∀ (gfetch : String → Option String) (t : String),
      WellTypedCache (get_quality cfg c gfetch t).2.1) := by
  constructor
  · intro fetch t
    by_cases hc : (cfg.use_cache && !cfg.force_recalculate) = true
    · cases hlk : cacheLookup c ("prose_size:" ++ t) with
      | some w =>
        simpa [get_prose_size, hc, hlk] using h
      | none =>
        cases hpr : prose_from_response (fetch t) with
        | none => simpa [get_prose_size, hc, hlk, hpr] using h
        | some r =>
          simpa [get_prose_size, hc, hlk, hpr] using
            wellTyped_insert_prose c h t r
    · have hc' : (cfg.use_cache && !cfg.force_recalculate) = false := by
        simpa using hc
      cases hpr : prose_from_response (fetch t) with
      | none => simpa [get_prose_size, hc', hpr] using h
      | some r => simpa [get_prose_size, hc', hpr] using h
  · intro gfetch t
    by_cases hc : (cfg.use_cache && !cfg.force_recalculate) = true
    · cases hlk : cacheLookup c ("quality:" ++ t) with
      | some w =>
        simpa [get_quality, hc, hlk] using h
      | none =>
        cases hgf : gfetch t with
        | none => simpa [get_quality, hc, hlk, hgf] using h
        | some w =>
          simpa [get_quality, hc, hlk, hgf] using
            wellTyped_insert_quality c h t (get_quality_label w)
              (get_quality_label_cases w)
    · have hc' : (cfg.use_cache && !cfg.force_recalculate) = false := by
        simpa using hc
      cases hgf : gfetch t with
      | none => simpa [get_quality, hc', hgf] using h
      | some w => simpa [get_quality, hc', hgf] using h

/-- Witness for C10: the empty cache is well-typed and stays so across
one prose-size call and one quality call. -/
theorem claim10_cache_typing_witness :
    WellTypedCache ([] : Cache) ∧
    WellTypedCache (get_prose_size ⟨true, false⟩ []
      (fun _ => ApiResponse.html ["ab"]) "T").2.1 ∧
    WellTypedCache (get_quality ⟨true, false⟩ []
      (fun _ => some "x") "T").2.1 := by
  have hnil : WellTypedCache ([] : Cache) :=
    ⟨fun t v hv => by simp [cacheLookup] at hv,
     fun t v hv => by simp [cacheLookup] at hv⟩
  exact ⟨hnil, (claim10_cache_typing ⟨true, false⟩ [] hnil).1 _ _,
    (claim10_cache_typing ⟨true, false⟩ [] hnil).2 _ _⟩

/-! ## Claim about the batch preloader -/

theorem chunksOfAux_join {α : Type} (n : Nat) (hn : n ≠ 0) :
    ∀ (fuel : Nat) (l : List α), l.length ≤ fuel →
      (chunksOfAux n fuel l).flatten = l := by
  intro fuel
  induction fuel with
  | zero =>
    intro l hl
    have hl0 : l = [] := List.length_eq_zero.mp (Nat.le_zero.mp hl)
    subst hl0
    simp [chunksOfAux]
  | succ f ih =>
    intro l hl
    cases l with
    | nil => simp [chunksOfAux]
    | cons x xs =>
      simp only [chunksOfAux, List.flatten_cons]
      have hlen : ((x :: xs).drop n).length ≤ f := by
        simp only [List.length_drop, List.length_cons]
        simp only [List.length_cons] at hl
        omega
      rw [ih ((x :: xs).drop n) hlen]
      exact List.take_append_drop n (x :: xs)

theorem chunksOfAux_mem {α : Type} (n : Nat) (hn : n ≠ 0) :
    ∀ (fuel : Nat) (l g : List α), g ∈ chunksOfAux n fuel l →
      g ≠ [] ∧ g.length ≤ n := by
  intro fuel
  induction fuel with
  | zero =>
    intro l g hg
    simp [chunksOfAux] at hg
  | succ f ih =>
    intro l g hg
    cases l with
    | nil => simp [chunksOfAux] at hg
    | cons x xs =>
      simp only [chunksOfAux] at hg
      rcases List.mem_cons.mp hg with h1 | h1
      · subst h1
        constructor
        · cases hn' : n with
          | zero => exact absurd hn' hn
          | succ m => simp [List.take]
        · rw [List.length_take]
          exact min_le_left _ _
      · exact ih _ g h1

theorem chunksOf_join {α : Type} (n : Nat) (hn : n ≠ 0) (l : List α) :
    (chunksOf n l).flatten = l := by
  simp only [chunksOf, if_neg hn]
  exact chunksOfAux_join n hn l.length l (Nat.le_refl _)

theorem chunksOf_mem {α : Type} (n : Nat) (hn : n ≠ 0) (l g : List α)
    (hg : g ∈ chunksOf n l) : g ≠ [] ∧ g.length ≤ n := by
  rw [chunksOf, if_neg hn] at hg
  exact chunksOfAux_mem n hn l.length l g hg

theorem batch_foldl_spec (fetch : List String → BatchFetchResult)
    (gs : List (List String))
    (acc : List (String × String) × List (List String)) :
    gs.foldl
      (fun acc batch =>
        match fetch batch with
        | .fetchError => (acc.1, acc.2 ++ [batch])
        | .noPages => (acc.1, acc.2 ++ [batch])
        | .pages ps => (acc.1 ++ extract_pages ps, acc.2 ++ [batch])) acc =
      (acc.1 ++ (gs.map (batch_contrib fetch)).flatten, acc.2 ++ gs) := by
  induction gs generalizing acc with
  | nil => simp
  | cons g gs ih =>
    rw [List.foldl_cons, ih]
    cases hfg : fetch g <;>
      simp [hfg, batch_contrib, List.append_assoc]

/-- C8: the batch preloader splits the title list into slices of at most
50 titles (the API limit), issues exactly one multi-title fetch per
slice — in order, with no retry and no early abort, a failed slice
included — the slices together are exactly the input list, and the
accumulated results are the per-slice contributions of the successful
fetches joined in order (a failed slice contributes nothing). -/
theorem claim8_batch_preloader (fetch : List String → BatchFetchResult)
    (titles : List String) :
    (batch_get_wikitext fetch titles).2 = chunksOf 50 titles ∧
    (∀ g ∈ (batch_get_wikitext fetch titles).2, g ≠ [] ∧ g.length ≤ 50) ∧
    (chunksOf 50 titles).flatten = titles ∧
    (batch_get_wikitext fetch titles).1 =
      ((chunksOf 50 titles).map (batch_contrib fetch)).flatten := by
  have hn : (50 : Nat) ≠ 0 := by decide
  have hjoin := chunksOf_join 50 hn titles
  have hb : batch_get_wikitext fetch titles =
      (((chunksOf 50 titles).map (batch_contrib fetch)).flatten,
        chunksOf 50 titles) := by
    by_cases he : titles.isEmpty = true
    · have htl : titles = [] := by
        cases titles with
        | nil => rfl
        | cons a l => simp at he
      subst htl
      simp [batch_get_wikitext, chunksOf, chunksOfAux]
    · rw [batch_get_wikitext.eq_def, if_neg he,
        batch_foldl_spec fetch (chunksOf 50 titles) ([], [])]
      simp
  refine ⟨by rw [hb], ?_, hjoin, by rw [hb]⟩
  intro g hg
  rw [hb] at hg
  exact chunksOf_mem 50 hn titles g hg

/-- Witness for C8: two titles form a single slice, a failing fetch for
that slice is issued exactly once and contributes no results. -/
theorem claim8_batch_preloader_witness :
    (batch_get_wikitext (fun _ => BatchFetchResult.fetchError)
      ["a", "b"]).2 = [["a", "b"]] ∧
    ((["a", "b"] : List String) ≠ [] ∧
      (["a", "b"] : List String).length ≤ 50) ∧
    (batch_get_wikitext (fun _ => BatchFetchResult.fetchError)
      ["a", "b"]).1 = [] := by
  have h := claim8_batch_preloader (fun _ => BatchFetchResult.fetchError)
    ["a", "b"]
  refine ⟨h.1.trans (by decide), ?_, h.2.2.2.trans (by decide)⟩
  exact h.2.1 ["a", "b"] (by rw [h.1]; decide)

/-! ## Claim about per-row failure isolation -/

theorem filterMap_ok_length (f : QRow → Except String EnrichedRow)
    (r₀ : QRow) (msg : String) (herr : f r₀ = Except.error msg) :
    ∀ l : List QRow, (∀ r ∈ l, r ≠ r₀ → ∃ y, f r = Except.ok y) →
      (l.filterMap (fun r => (f r).toOption)).length + l.count r₀ =
        l.length := by
  intro l
  induction l with
  | nil => simp
  | cons a t ih =>
    intro h
    have ht := ih (fun r hr hne => h r (List.mem_cons_of_mem a hr) hne)
    by_cases ha : a = r₀
    · subst ha
      have hnone : (f a).toOption = none := by rw [herr]; rfl
      simp [List.filterMap_cons, hnone, List.count_cons_self]
      omega
    · obtain ⟨y, hy⟩ := h a (List.mem_cons_self a t) ha
      have hsome : (f a).toOption = some y := by rw [hy]; rfl
      have hcnt : (a :: t).count r₀ = t.count r₀ :=
        List.count_cons_of_ne (fun hh => ha hh.symm) t
      simp [List.filterMap_cons, hsome, hcnt]
      omega

/-- C5: per-row failure isolation. For a row list in which exactly one
row raises from its per-row processing (all others succeed), the
collection loop — under any completion order — produces an output
containing an enriched row for every non-failing input row and nothing
else, so the failing row alone is dropped and the batch is not aborted
(the output has exactly one row fewer than the input). -/
theorem claim5_per_row_isolation (f : QRow → Except String EnrichedRow)
    (rows order : List QRow) (r₀ : QRow) (msg : String)
    (hperm : order.Perm rows) (_hmem : r₀ ∈ rows)
    (hcount : rows.count r₀ = 1)
    (herr : f r₀ = Except.error msg)
    (hok : ∀ r ∈ rows, r ≠ r₀ → ∃ y, f r = Except.ok y) :
    (∀ y ∈ process_article_data f order,
      ∃ r ∈ rows, r ≠ r₀ ∧ f r = Except.ok y) ∧
    (∀ r ∈ rows, r ≠ r₀ →
      ∃ y, f r = Except.ok y ∧ y ∈ process_article_data f order) ∧
    (process_article_data f order).length + 1 = rows.length := by
  refine ⟨?_, ?_, ?_⟩
  · intro y hy
    obtain ⟨r, hr, hfr⟩ := List.mem_filterMap.mp hy
    have hrr : r ∈ rows := hperm.mem_iff.mp hr
    have hne : r ≠ r₀ := by
      intro hh
      rw [hh, herr] at hfr
      exact Option.noConfusion hfr
    obtain ⟨y', hy'⟩ := hok r hrr hne
    have : y' = y := by
      rw [hy'] at hfr
      exact Option.some.inj hfr
    exact ⟨r, hrr, hne, this ▸ hy'⟩
  · intro r hr hne
    obtain ⟨y, hy⟩ := hok r hr hne
    refine ⟨y, hy, List.mem_filterMap.mpr ⟨r, hperm.mem_iff.mpr hr, ?_⟩⟩
    rw [hy]
    rfl
  · have h1 := filterMap_ok_length f r₀ msg herr order
      (fun r hr hne => hok r (hperm.mem_iff.mp hr) hne)
    have h2 : order.count r₀ = 1 := (hperm.count_eq r₀).trans hcount
    have h3 : order.length = rows.length := hperm.length_eq
    rw [process_article_data]
    omega

/-- Witness for C5: of two rows, the one titled B raises and is dropped;
the output keeps exactly the other row's result. -/
theorem claim5_per_row_isolation_witness :
    (process_article_data
      (fun r => if r.page_title = "B" then Except.error "boom"
        else Except.ok ⟨"A", "2020-01-01", "1000", CacheValue.nat 3, "2",
          "0", "", CacheValue.str ""⟩)
      [⟨"A", "2020-01-01", "1000", "2", "0"⟩,
       ⟨"B", "2020-01-01", "1000", "2", "0"⟩]).length + 1 = 2 := by
  have h := claim5_per_row_isolation
    (fun r => if r.page_title = "B" then Except.error "boom"
      else Except.ok ⟨"A", "2020-01-01", "1000", CacheValue.nat 3, "2",
        "0", "", CacheValue.str ""⟩)
    [⟨"A", "2020-01-01", "1000", "2", "0"⟩,
     ⟨"B", "2020-01-01", "1000", "2", "0"⟩]
    [⟨"A", "2020-01-01", "1000", "2", "0"⟩,
     ⟨"B", "2020-01-01", "1000", "2", "0"⟩]
    ⟨"B", "2020-01-01", "1000", "2", "0"⟩ "boom"
    (List.Perm.refl _) (by decide) (by decide) rfl ?hok
  case hok =>
    intro r hr hne
    rcases List.mem_cons.mp hr with h1 | h1
    · refine ⟨⟨"A", "2020-01-01", "1000", CacheValue.nat 3, "2", "0", "",
        CacheValue.str ""⟩, ?_⟩
      rw [h1]
      rfl
    · have : r = ⟨"B", "2020-01-01", "1000", "2", "0"⟩ := by simpa using h1
      exact absurd this hne
  exact h.2.2

/-! ## Claim about the preloader being dead work -/

/-- C7: the markup mapping built by the batch preloader is never
consulted — the enrichment output is unchanged under any replacement of
the multi-title fetch capability — and the per-title quality lookup
issues its own markup fetch whenever it is not answered from the
metric cache. -/
theorem claim7_preload_not_consulted (cfg : Config) (src : Sources)
    (existing : List (String × String)) (w : Nat) (rows : List QRow)
    (c : Cache) :
    (∀ bf : List String → BatchFetchResult,
      run_enrichment cfg
        { prose_fetch := src.prose_fetch,
          wikitext_fetch := src.wikitext_fetch,
          batch_fetch := bf } existing w rows c =
        run_enrichment cfg src existing w rows c) ∧
    (∀ (c' : Cache) (gfetch : String → Option String) (t : String),
      (if cfg.use_cache && !cfg.force_recalculate then
          cacheLookup c' ("quality:" ++ t) else none) = none →
      (get_quality cfg c' gfetch t).2.2 = true) := by
  constructor
  · intro bf
    rfl
  · intro c' gfetch t hmiss
    simp only [get_quality, hmiss]
    cases hg : gfetch t with
    | none => rfl
    | some w' =>
      cases hcond : (cfg.use_cache && !cfg.force_recalculate) <;>
        simp [hg, hcond]

/-- Witness for C7: swapping a failing batch fetch for one returning
pages leaves the single-row enrichment output identical, and a
cache-missing quality lookup issues a fetch. -/
theorem claim7_preload_not_consulted_witness :
    run_enrichment ⟨true, false⟩
      ⟨fun _ => ApiResponse.fetchError, fun _ => none,
        fun _ => BatchFetchResult.fetchError⟩ [] 10
      [⟨"A", "2020-01-01", "1000", "2", "0"⟩] [] =
      run_enrichment ⟨true, false⟩
        ⟨fun _ => ApiResponse.fetchError, fun _ => none,
          fun _ => BatchFetchResult.pages []⟩ [] 10
        [⟨"A", "2020-01-01", "1000", "2", "0"⟩] [] ∧
    (get_quality ⟨true, false⟩ [] (fun _ => none) "A").2.2 = true := by
  have h := claim7_preload_not_consulted ⟨true, false⟩
    ⟨fun _ => ApiResponse.fetchError, fun _ => none,
      fun _ => BatchFetchResult.pages []⟩ [] 10
    [⟨"A", "2020-01-01", "1000", "2", "0"⟩] []
  exact ⟨h.1 (fun _ => BatchFetchResult.fetchError),
    h.2 [] (fun _ => none) "A" (by decide)⟩

/-! ## Claim about the fatal conditions of main -/

/-- C6 counterexample: a run with one good row and a failing
authentication terminates with status 1 and no publish attempt, although
the bulk source yielded a row and enrichment kept it — a third fatal
condition the claim's "exactly two" excludes. -/
theorem claim6_counterexample :
    main ⟨some [⟨"A", "2020-01-01", "1000", "2", "0"⟩],
      (fun _ => Except.ok ⟨"A", "2020-01-01", "1000", CacheValue.nat 0,
        "2", "0", "", CacheValue.str ""⟩), none, true⟩ =
      ⟨1, false⟩ ∧
    (some [(⟨"A", "2020-01-01", "1000", "2", "0"⟩ : QRow)] ≠
      (none : Option (List QRow))) ∧
    ([(⟨"A", "2020-01-01", "1000", "2", "0"⟩ : QRow)].isEmpty = false) ∧
    (process_article_data
      (fun _ => Except.ok ⟨"A", "2020-01-01", "1000", CacheValue.nat 0,
        "2", "0", "", CacheValue.str ""⟩)
      [⟨"A", "2020-01-01", "1000", "2", "0"⟩] ≠ []) := by
  refine ⟨?_, ?_, ?_, ?_⟩ <;> decide

/-- C6 (amended): the run terminates with a non-zero status and no
publish attempt if and only if the bulk source yields no rows, no rows
survive enrichment, or authentication fails; all other errors reach the
publish step. (The original claim named only the first two conditions as
fatal; the authentication-failure exit forces the third.) -/
theorem claim6_fatal_conditions_amended (env : MainEnv) :
    ((main env).status ≠ 0 ∧ (main env).publish_attempted = false) ↔
    (match env.quarry_rows with
     | none => True
     | some rows =>
         rows.isEmpty = true ∨
         (process_article_data env.fetch_row rows).isEmpty = true ∨
         env.auth = none) := by
  cases hq : env.quarry_rows with
  | none => simp [main, hq]
  | some rows =>
    simp only [main, hq]
    by_cases hre : rows.isEmpty = true
    · simp [hre]
    · have hre' : rows.isEmpty = false := by simpa using hre
      by_cases hup : (process_article_data env.fetch_row rows).isEmpty = true
      · simp [hre', hup]
      · have hup' : (process_article_data env.fetch_row rows).isEmpty =
            false := by simpa using hup
        cases ha : env.auth with
        | none => simp [hre', hup', ha]
        | some u =>
          cases hok : env.upload_ok <;> simp [hre', hup', ha, hok]

end MyArticles
